import Mathlib

/-!
Verification development for the prisma-engines SQL migration connector and
query-engine read AST. Definitions are shallow embeddings of
`migration-engine/connectors/sql-migration-connector/src/flavour.rs` and
`query-engine/core/src/query_ast/read.rs`, together with spec-modelled parts
for components whose sources are external to the snapshot.
-/

namespace PrismaEngines

/-- A `BitFlags<MigrationFeature>` value: a machine-word bitset of migration
feature flags. Modelled as a natural number holding the flag bits. -/
abbrev MigrationFeatures := Nat

/-- The `quaint::prelude::ConnectionInfo` descriptor: the already-parsed
connection target, one variant per backend kind. Mirrors the variants matched
in `from_connection_info` (flavour.rs lines 36-46). -/
inductive ConnectionInfo where
  | mysql (url : String)
  | postgres (url : String)
  | sqlite (file_path : String) (db_name : String)
  | mssql (url : String)
  | inMemorySqlite (db_name : String)
deriving DecidableEq, Repr

/-- The four SQL backend kinds served by the migration connector. -/
inductive BackendKind where
  | postgres
  | mysql
  | sqlite
  | sqlserver
deriving DecidableEq, Repr

/-- The concrete flavour implementations. `MysqlFlavour::new(url, features)`,
`PostgresFlavour::new(url, features)` and `MssqlFlavour::new(url, features)`
store the url and the feature flags; `SqliteFlavour` is built by a struct
literal with fields `file_path`, `attached_name`, `features`
(flavour.rs lines 37-44). -/
inductive SqlFlavourImpl where
  | mysqlFlavour (url : String) (features : MigrationFeatures)
  | postgresFlavour (url : String) (features : MigrationFeatures)
  | sqliteFlavour (file_path : String) (attached_name : String) (features : MigrationFeatures)
  | mssqlFlavour (url : String) (features : MigrationFeatures)
deriving DecidableEq, Repr

/-- Backend kind of a flavour implementation. -/
def SqlFlavourImpl.backend : SqlFlavourImpl → BackendKind
  | .mysqlFlavour _ _ => .mysql
  | .postgresFlavour _ _ => .postgres
  | .sqliteFlavour _ _ _ => .sqlite
  | .mssqlFlavour _ _ => .sqlserver

/-- Backend kind named by a connection descriptor variant, `none` for the
in-memory SQLite variant (which has no flavour). -/
def ConnectionInfo.targetKind : ConnectionInfo → Option BackendKind
  | .mysql _ => some .mysql
  | .postgres _ => some .postgres
  | .sqlite _ _ => some .sqlite
  | .mssql _ => some .sqlserver
  | .inMemorySqlite _ => none

/-- The maximum size of identifiers on MySQL, in bytes (flavour.rs line 30). -/
def MYSQL_IDENTIFIER_SIZE_LIMIT : Nat := 64

/-- Embedding of `from_connection_info` (flavour.rs lines 32-47). The Rust
function matches on the descriptor variant and boxes the corresponding
flavour; the `InMemorySqlite` arm is `unreachable!`, embedded as `none`. -/
def from_connection_info (connection_info : ConnectionInfo) (features : MigrationFeatures) :
    Option SqlFlavourImpl :=
  match connection_info with
  | .mysql url => some (.mysqlFlavour url features)
  | .postgres url => some (.postgresFlavour url features)
  | .sqlite file_path db_name => some (.sqliteFlavour file_path db_name features)
  | .mssql url => some (.mssqlFlavour url features)
  | .inMemorySqlite _ => none

/-- Modelled from the spec: the per-flavour `features()` implementations live
in the `mssql`/`mysql`/`postgres`/`sqlite` submodules, which are not part of
the snapshot. Per the spec, `features() -> capability set` returns the
flavour's cached capability set, i.e. the flags stored at construction. -/
def SqlFlavourImpl.features : SqlFlavourImpl → MigrationFeatures
  | .mysqlFlavour _ f => f
  | .postgresFlavour _ f => f
  | .sqliteFlavour _ _ f => f
  | .mssqlFlavour _ f => f

/-- The datamodel handed to `check_database_version_compatibility`. It comes
from the external `datamodel` crate and is opaque to the claims; modelled as a
wrapper around its textual rendering. -/
structure Datamodel where
  source : String
deriving DecidableEq, Repr

/-- A `user_facing_errors::common::DatabaseVersionIncompatibility` warning;
opaque external type, modelled as its message. -/
structure DatabaseVersionIncompatibility where
  message : String
deriving DecidableEq, Repr

/-- Embedding of the default implementation of
`SqlFlavour::check_database_version_compatibility` (flavour.rs lines 55-60):
it ignores the datamodel and returns `None`. -/
def check_database_version_compatibility (_self : SqlFlavourImpl) (_datamodel : Datamodel) :
    Option DatabaseVersionIncompatibility :=
  none

/-- Embedding of the default implementation of
`SqlFlavour::scan_migration_script` (flavour.rs line 89). The Rust method
takes `&self` and a script and has the empty body; embedded state-passing
style, it returns unit and the receiver unchanged. -/
def scan_migration_script (self_ : SqlFlavourImpl) (_script : String) :
    Unit × SqlFlavourImpl :=
  ((), self_)

/-- Embedding of the default implementation of
`SqlFlavour::migrations_table_name` (flavour.rs lines 101-103). -/
def migrations_table_name (_self : SqlFlavourImpl) : String :=
  "_prisma_migrations"

/-- Opaque error payload of a failed connector operation
(`migration_connector::ConnectorError`), modelled as its message. -/
abbrev ConnectorError := String

/-- `ConnectorResult<T>`: the explicit result type of every fallible flavour
operation, either a value or a `ConnectorError`. -/
abbrev ConnectorResult (α : Type) := Except ConnectorError α

/-- An opaque live connection handle (`connection_wrapper::Connection`). -/
structure Connection where
  id : Nat
deriving DecidableEq, Repr

/-- A `MigrationDirectory` (spec section 3): an ordered, immutable migration
unit with a timestamp-prefixed name, SQL text and a checksum of the text. -/
structure MigrationDirectory where
  name : String
  sql_text : String
  checksum : String
deriving DecidableEq, Repr

/-- Opaque handle to the orchestrating `SqlMigrationConnector`. -/
structure SqlMigrationConnector where
  id : Nat
deriving DecidableEq, Repr

/-- A column of a table in a `SqlSchema` snapshot (spec section 3):
name, type, nullability and default. -/
structure Column where
  name : String
  type : String
  nullable : Bool
  default : Option String
deriving DecidableEq, Repr

/-- An index of a table in a `SqlSchema` snapshot (spec section 3):
name, column list and uniqueness. -/
structure Index where
  name : String
  columns : List String
  unique : Bool
deriving DecidableEq, Repr

/-- A foreign key of a table in a `SqlSchema` snapshot (spec section 3):
constrained columns, referenced table and columns, and referential actions. -/
structure ForeignKey where
  columns : List String
  referenced_table : String
  referenced_columns : List String
  on_delete_action : String
  on_update_action : String
deriving DecidableEq, Repr

/-- A table of a `SqlSchema` snapshot (spec section 3). -/
structure Table where
  name : String
  columns : List Column
  primary_key : Option (List String)
  indexes : List Index
  foreign_keys : List ForeignKey
deriving DecidableEq, Repr

/-- A `SqlSchema`: an immutable schema snapshot (spec section 3) of tables,
enums and sequences. -/
structure SqlSchema where
  tables : List Table
  enums : List (String × List String)
  sequences : List String
deriving DecidableEq, Repr

/-- Well-formedness of a snapshot, from the spec section 3 invariant
"Names unique within their namespace": table names are distinct, and column
names are distinct within each table. -/
def SqlSchema.wf (s : SqlSchema) : Prop :=
  (s.tables.map Table.name).Nodup ∧ ∀ t ∈ s.tables, (t.columns.map Column.name).Nodup

instance (s : SqlSchema) : Decidable s.wf := by
  unfold SqlSchema.wf; infer_instance

/-- The fallible operations of the `SqlFlavour` trait contract
(flavour.rs lines 49-112): each I/O operation is a total function into
`ConnectorResult`, mirroring the Rust signatures (async methods returning
`ConnectorResult<_>`). -/
structure SqlFlavourOps where
  acquire_lock : Connection → ConnectorResult Unit
  create_database : String → ConnectorResult String
  create_migrations_table : Connection → ConnectorResult Unit
  describe_schema : Connection → ConnectorResult SqlSchema
  drop_database : String → ConnectorResult Unit
  drop_migrations_table : Connection → ConnectorResult Unit
  ensure_connection_validity : Connection → ConnectorResult Unit
  qe_setup : String → ConnectorResult Unit
  reset : Connection → ConnectorResult Unit
  sql_schema_from_migration_history :
    List MigrationDirectory → Connection → SqlMigrationConnector → ConnectorResult SqlSchema

/-- A result is explicit when it is an `ok` value or an `error` value — it
signals failure as a value, never by raising. -/
def ConnectorResult.is_explicit {α : Type} (r : ConnectorResult α) : Prop :=
  (∃ v, r = Except.ok v) ∨ (∃ e, r = Except.error e)

theorem ConnectorResult.is_explicit_all {α : Type} (r : ConnectorResult α) : r.is_explicit := by
  cases r with
  | ok v => exact Or.inl ⟨v, rfl⟩
  | error e => exact Or.inr ⟨e, rfl⟩

/-- A diff step (spec section 3): tagged variant referencing entities by
name, since schemas are snapshots in time. -/
inductive DiffStep where
  | CreateTable (table : String)
  | DropTable (table : String)
  | AddColumn (table : String) (column : String)
  | DropColumn (table : String) (column : String)
  | AlterColumn (table : String) (column : String)
  | AddForeignKey (table : String) (fk : ForeignKey)
  | DropForeignKey (table : String) (fk : ForeignKey)
  | CreateIndex (table : String) (index : Index)
  | DropIndex (table : String) (index : Index)
  | RedefineTable (table : String)
deriving DecidableEq, Repr

/-- A flavour's fixed capability set (spec section 3): named boolean
capabilities plus the maximum identifier length. -/
structure Capabilities where
  supports_column_drop : Bool
  supports_transactional_ddl : Bool
  max_identifier_length : Nat
deriving DecidableEq, Repr

/-- Lookup of a table by name in a snapshot's table list. -/
def findTable (tables : List Table) (name : String) : Option Table :=
  tables.find? (fun t => decide (t.name = name))

/-- Modelled from the spec: the differ compares columns present in both
tables on type, nullability and default (spec section 4.2 step 2); the
semantic per-dialect comparison agrees with equality on the modelled fields. -/
def columns_match (c c' : Column) : Bool :=
  decide (c.type = c'.type) && decide (c.nullable = c'.nullable) &&
    decide (c.default = c'.default)

/-- Modelled from the spec: column diff of a table present in both snapshots
(spec section 4.2 step 2) — set-difference of column names gives dropped and
added columns; columns present in both are compared with `columns_match` to
detect `AlterColumn`. -/
def column_steps (t t' : Table) : List DiffStep :=
  let dropped := t.columns.filter
    (fun c => !(t'.columns.any (fun c' => decide (c'.name = c.name))))
  let added := t'.columns.filter
    (fun c => !(t.columns.any (fun c' => decide (c'.name = c.name))))
  let altered := t.columns.filterMap (fun c =>
    match t'.columns.find? (fun c' => decide (c'.name = c.name)) with
    | some c' =>
      if columns_match c c' then none else some (DiffStep.AlterColumn t.name c.name)
    | none => none)
  dropped.map (fun c => DiffStep.DropColumn t.name c.name) ++
    added.map (fun c => DiffStep.AddColumn t'.name c.name) ++ altered

/-- Modelled from the spec: index diff of a table present in both snapshots,
by structural equality (spec section 4.2 step 3). -/
def index_steps (t t' : Table) : List DiffStep :=
  (t.indexes.filter (fun i => !(t'.indexes.any (fun i' => decide (i' = i))))).map
      (DiffStep.DropIndex t.name) ++
    (t'.indexes.filter (fun i => !(t.indexes.any (fun i' => decide (i' = i))))).map
      (DiffStep.CreateIndex t'.name)

/-- Modelled from the spec: foreign keys of `t` with no structurally equal
counterpart in `t'` (spec section 4.2 step 3), emitted as drops. -/
def dropped_fk_steps (t t' : Table) : List DiffStep :=
  (t.foreign_keys.filter
      (fun fk => !(t'.foreign_keys.any (fun fk' => decide (fk' = fk))))).map
    (DiffStep.DropForeignKey t.name)

/-- Modelled from the spec: foreign keys of `t'` with no structurally equal
counterpart in `t` (spec section 4.2 step 3), emitted as additions. -/
def added_fk_steps (t t' : Table) : List DiffStep :=
  (t'.foreign_keys.filter
      (fun fk => !(t.foreign_keys.any (fun fk' => decide (fk' = fk))))).map
    (DiffStep.AddForeignKey t'.name)

/-- Modelled from the spec: capability substitution (spec section 4.2 step 5)
— when the backend does not support dropping a column, the naive `DropColumn`
step is replaced by `RedefineTable`, uniformly via capability lookup. -/
def substitute_step (caps : Capabilities) (s : DiffStep) : DiffStep :=
  match s with
  | DiffStep.DropColumn tbl _ =>
    if caps.supports_column_drop then s else DiffStep.RedefineTable tbl
  | _ => s

/-- Modelled from the spec: the SchemaDiffer (spec section 4.2), whose source
is not part of the snapshot. Pure function from two snapshots and the
capability set to an ordered step list: set-difference of table names gives
dropped/created tables (step 1); tables present in both are diffed on
columns, indexes and foreign keys (steps 2-3); steps are ordered with
foreign-key drops first and all foreign-key additions deferred to a trailing
pass (step 4); capability substitution is applied uniformly (step 5). -/
def diff (schema_from schema_to : SqlSchema) (caps : Capabilities) : List DiffStep :=
  let dropped_tables := schema_from.tables.filter
    (fun t => (findTable schema_to.tables t.name).isNone)
  let created_tables := schema_to.tables.filter
    (fun t => (findTable schema_from.tables t.name).isNone)
  let fk_drops :=
    dropped_tables.flatMap (fun t => t.foreign_keys.map (DiffStep.DropForeignKey t.name)) ++
      schema_from.tables.flatMap (fun t =>
        match findTable schema_to.tables t.name with
        | some t' => dropped_fk_steps t t'
        | none => [])
  let table_drops := dropped_tables.map (fun t => DiffStep.DropTable t.name)
  let table_creates := created_tables.map (fun t => DiffStep.CreateTable t.name)
  let body := schema_from.tables.flatMap (fun t =>
    match findTable schema_to.tables t.name with
    | some t' => column_steps t t' ++ index_steps t t'
    | none => [])
  let fk_adds :=
    schema_from.tables.flatMap (fun t =>
        match findTable schema_to.tables t.name with
        | some t' => added_fk_steps t t'
        | none => []) ++
      created_tables.flatMap (fun t => t.foreign_keys.map (DiffStep.AddForeignKey t.name))
  (fk_drops ++ table_drops ++ table_creates ++ body ++ fk_adds).map (substitute_step caps)

/-- A `connector::filter::Filter`; opaque external type, modelled as its
condition rendering. -/
structure Filter where
  condition : String
deriving DecidableEq, Repr

/-- A `prisma_models::ModelRef`; opaque external handle, modelled by the
model's name. -/
abbrev ModelRef := String

/-- A `prisma_models::RelationFieldRef`; opaque external handle. -/
structure RelationFieldRef where
  model_name : String
  field_name : String
  related_model_name : String
deriving DecidableEq, Repr

/-- A `prisma_models::SelectionResult`; opaque external record of
field-value pairs. -/
structure SelectionResult where
  pairs : List (String × String)
deriving DecidableEq, Repr

/-- A `connector::AggregationSelection`; opaque external type. -/
structure AggregationSelection where
  target : String
deriving DecidableEq, Repr

/-- A `connector::RelAggregationSelection`; opaque external type. -/
structure RelAggregationSelection where
  target : String
deriving DecidableEq, Repr

/-- A `prisma_models::ScalarFieldRef`; opaque external handle. -/
abbrev ScalarFieldRef := String

/-- A `prisma_models::FieldSelection`: a set of selected fields, modelled by
the selected field names. -/
structure FieldSelection where
  selections : List String
deriving DecidableEq, Repr

/-- Modelled from external `prisma_models` (not part of the snapshot):
`FieldSelection::is_superset_of` holds when every selection of `other` is
contained in `self`. -/
def FieldSelection.is_superset_of (self_ other : FieldSelection) : Bool :=
  other.selections.all (fun f => self_.selections.contains f)

/-- The `QueryOption` bit flags (read.rs lines 108-114). -/
inductive QueryOption where
  | throwOnEmpty
  | other
deriving DecidableEq, Repr

/-- `QueryOptions` (read.rs lines 116-117): a `BitFlags<QueryOption>` value,
modelled as the list of set flags. -/
structure QueryOptions where
  flags : List QueryOption
deriving DecidableEq, Repr

/-- A `connector::QueryArguments`; external type, modelled with the `filter`
field manipulated by `FilteredQuery` plus opaque pagination fields. -/
structure QueryArguments where
  filter : Option Filter
  take : Option Int
  skip : Option Int
deriving DecidableEq, Repr

mutual

/-- The read query AST (read.rs lines 11-16): one variant per read query
shape. -/
inductive ReadQuery where
  | recordQuery (q : RecordQuery)
  | manyRecordsQuery (q : ManyRecordsQuery)
  | relatedRecordsQuery (q : RelatedRecordsQuery)
  | aggregateRecordsQuery (q : AggregateRecordsQuery)

/-- `RecordQuery` (read.rs lines 143-154). -/
inductive RecordQuery where
  | mk (name : String) (alias_ : Option String) (model : ModelRef)
      (filter : Option Filter) (selected_fields : FieldSelection)
      (nested : List ReadQuery) (selection_order : List String)
      (aggregation_selections : List RelAggregationSelection)
      (options : QueryOptions)

/-- `ManyRecordsQuery` (read.rs lines 156-167). -/
inductive ManyRecordsQuery where
  | mk (name : String) (alias_ : Option String) (model : ModelRef)
      (args : QueryArguments) (selected_fields : FieldSelection)
      (nested : List ReadQuery) (selection_order : List String)
      (aggregation_selections : List RelAggregationSelection)
      (options : QueryOptions)

/-- `RelatedRecordsQuery` (read.rs lines 169-183). -/
inductive RelatedRecordsQuery where
  | mk (name : String) (alias_ : Option String) (parent_field : RelationFieldRef)
      (args : QueryArguments) (selected_fields : FieldSelection)
      (nested : List ReadQuery) (selection_order : List String)
      (aggregation_selections : List RelAggregationSelection)
      (parent_results : Option (List SelectionResult))

/-- `AggregateRecordsQuery` (read.rs lines 185-195). -/
inductive AggregateRecordsQuery where
  | mk (name : String) (alias_ : Option String) (model : ModelRef)
      (selection_order : List (String × Option (List String)))
      (args : QueryArguments) (selectors : List AggregationSelection)
      (group_by : List ScalarFieldRef) (having : Option Filter)

end

/-- Field accessor: a `RecordQuery`'s filter. -/
def RecordQuery.filter : RecordQuery → Option Filter
  | .mk _ _ _ f _ _ _ _ _ => f

/-- Field accessor: a `RecordQuery`'s selected fields. -/
def RecordQuery.selected_fields : RecordQuery → FieldSelection
  | .mk _ _ _ _ sf _ _ _ _ => sf

/-- Field accessor: a `ManyRecordsQuery`'s arguments. -/
def ManyRecordsQuery.args : ManyRecordsQuery → QueryArguments
  | .mk _ _ _ a _ _ _ _ _ => a

/-- Field accessor: a `ManyRecordsQuery`'s selected fields. -/
def ManyRecordsQuery.selected_fields : ManyRecordsQuery → FieldSelection
  | .mk _ _ _ _ sf _ _ _ _ => sf

/-- Field accessor: a `RelatedRecordsQuery`'s selected fields. -/
def RelatedRecordsQuery.selected_fields : RelatedRecordsQuery → FieldSelection
  | .mk _ _ _ _ sf _ _ _ _ => sf

/-- Embedding of `ReadQuery::returns` (read.rs lines 20-27): whether the
query returns the given field selection from the underlying model. -/
def ReadQuery.returns : ReadQuery → FieldSelection → Bool
  | .recordQuery x, field_selection => x.selected_fields.is_superset_of field_selection
  | .manyRecordsQuery x, field_selection => x.selected_fields.is_superset_of field_selection
  | .relatedRecordsQuery x, field_selection => x.selected_fields.is_superset_of field_selection
  | .aggregateRecordsQuery _, _ => false

/-- Embedding of `FilteredQuery::get_filter` for `RecordQuery`
(read.rs lines 198-200): `self.filter.as_mut()`. -/
def RecordQuery.get_filter (q : RecordQuery) : Option Filter :=
  q.filter

/-- Embedding of `FilteredQuery::set_filter` for `RecordQuery`
(read.rs lines 202-204): stores `Some(filter)` in the `filter` field. -/
def RecordQuery.set_filter : RecordQuery → Filter → RecordQuery
  | .mk n al m _ sf ne so ag op, filter => .mk n al m (some filter) sf ne so ag op

/-- Embedding of `FilteredQuery::get_filter` for `ManyRecordsQuery`
(read.rs lines 208-210): `self.args.filter.as_mut()`. -/
def ManyRecordsQuery.get_filter (q : ManyRecordsQuery) : Option Filter :=
  q.args.filter

/-- Embedding of `FilteredQuery::set_filter` for `ManyRecordsQuery`
(read.rs lines 212-214): stores `Some(filter)` in `args.filter`. -/
def ManyRecordsQuery.set_filter : ManyRecordsQuery → Filter → ManyRecordsQuery
  | .mk n al m a sf ne so ag op, filter =>
    .mk n al m { a with filter := some filter } sf ne so ag op

/-- Embedding of `FilteredQuery::get_filter` for `ReadQuery`
(read.rs lines 40-46): delegates on the `RecordQuery` and `ManyRecordsQuery`
variants and panics (`unimplemented!`, embedded as `none`) otherwise. The
outer option is the panic, the inner option is the Rust return value. -/
def ReadQuery.get_filter : ReadQuery → Option (Option Filter)
  | .recordQuery q => some q.get_filter
  | .manyRecordsQuery q => some q.get_filter
  | .relatedRecordsQuery _ => none
  | .aggregateRecordsQuery _ => none

/-- Embedding of `FilteredQuery::set_filter` for `ReadQuery`
(read.rs lines 48-54): delegates on the `RecordQuery` and `ManyRecordsQuery`
variants and panics (`unimplemented!`, embedded as `none`) otherwise. -/
def ReadQuery.set_filter : ReadQuery → Filter → Option ReadQuery
  | .recordQuery q, filter => some (.recordQuery (q.set_filter filter))
  | .manyRecordsQuery q, filter => some (.manyRecordsQuery (q.set_filter filter))
  | .relatedRecordsQuery _, _ => none
  | .aggregateRecordsQuery _, _ => none

theorem any_key_self {α β : Type} [DecidableEq β] (key : α → β) (l : List α) (x : α)
    (hx : x ∈ l) : l.any (fun y => decide (key y = key x)) = true :=
  List.any_eq_true.mpr ⟨x, hx, by simp⟩

theorem find?_key_self {α β : Type} [DecidableEq β] (key : α → β) :
    ∀ (l : List α) (x : α), x ∈ l → (l.map key).Nodup →
      l.find? (fun y => decide (key y = key x)) = some x := by
  intro l
  induction l with
  | nil => intro x hx _; cases hx
  | cons a l ih =>
    intro x hx hnd
    rw [List.map_cons, List.nodup_cons] at hnd
    rcases List.mem_cons.mp hx with rfl | hmem
    · exact List.find?_cons_of_pos _ (by simp)
    · have hne : ¬(decide (key a = key x) = true) := by
        simp only [decide_eq_true_eq]
        exact fun h => hnd.1 (h ▸ List.mem_map_of_mem key hmem)
      have hstep : (a :: l).find? (fun y => decide (key y = key x)) =
          l.find? (fun y => decide (key y = key x)) :=
        List.find?_cons_of_neg l hne
      rw [hstep]
      exact ih x hmem hnd.2

theorem column_steps_self (t : Table) (h : (t.columns.map Column.name).Nodup) :
    column_steps t t = [] := by
  have hdrop : t.columns.filter
      (fun c => !(t.columns.any (fun c' => decide (c'.name = c.name)))) = [] := by
    rw [List.filter_eq_nil_iff]
    intro c hc
    simp [any_key_self Column.name t.columns c hc]
  have halter : t.columns.filterMap (fun c =>
      match t.columns.find? (fun c' => decide (c'.name = c.name)) with
      | some c' =>
        if columns_match c c' then none else some (DiffStep.AlterColumn t.name c.name)
      | none => none) = [] := by
    rw [List.filterMap_eq_nil_iff]
    intro c hc
    rw [find?_key_self Column.name t.columns c hc h]
    simp [columns_match]
  simp only [column_steps, hdrop, halter, List.map_nil, List.append_nil, List.nil_append]

theorem index_steps_self (t : Table) : index_steps t t = [] := by
  have h : t.indexes.filter (fun i => !(t.indexes.any (fun i' => decide (i' = i)))) = [] := by
    rw [List.filter_eq_nil_iff]
    intro i hi
    have hany : t.indexes.any (fun i' => decide (i' = i)) = true :=
      List.any_eq_true.mpr ⟨i, hi, by simp⟩
    simp [hany]
  simp only [index_steps, h, List.map_nil, List.append_nil]

theorem dropped_fk_steps_self (t : Table) : dropped_fk_steps t t = [] := by
  have h : t.foreign_keys.filter
      (fun fk => !(t.foreign_keys.any (fun fk' => decide (fk' = fk)))) = [] := by
    rw [List.filter_eq_nil_iff]
    intro fk hfk
    have hany : t.foreign_keys.any (fun fk' => decide (fk' = fk)) = true :=
      List.any_eq_true.mpr ⟨fk, hfk, by simp⟩
    simp [hany]
  simp only [dropped_fk_steps, h, List.map_nil]

theorem added_fk_steps_self (t : Table) : added_fk_steps t t = [] := by
  have h : t.foreign_keys.filter
      (fun fk => !(t.foreign_keys.any (fun fk' => decide (fk' = fk)))) = [] := by
    rw [List.filter_eq_nil_iff]
    intro fk hfk
    have hany : t.foreign_keys.any (fun fk' => decide (fk' = fk)) = true :=
      List.any_eq_true.mpr ⟨fk, hfk, by simp⟩
    simp [hany]
  simp only [added_fk_steps, h, List.map_nil]

/-- C1: for every parsed connection descriptor whose kind is one of the four
backends, `from_connection_info` returns the flavour of exactly that backend
kind; and the chosen backend is determined solely by the descriptor's variant
(descriptors of the same variant yield the same backend for any payload data
and any feature flags). -/
theorem from_connection_info_selects_backend :
    (∀ (ci : ConnectionInfo) (features : MigrationFeatures) (k : BackendKind),
        ci.targetKind = some k →
        (from_connection_info ci features).map SqlFlavourImpl.backend = some k) ∧
    (∀ (ci ci' : ConnectionInfo) (features features' : MigrationFeatures),
        ci.targetKind = ci'.targetKind →
        (from_connection_info ci features).map SqlFlavourImpl.backend =
          (from_connection_info ci' features').map SqlFlavourImpl.backend) := by
  constructor
  · intro ci features k h
    cases ci <;>
      simp_all [ConnectionInfo.targetKind, from_connection_info, SqlFlavourImpl.backend]
  · intro ci ci' features features' h
    cases ci <;> cases ci' <;>
      simp_all [ConnectionInfo.targetKind, from_connection_info, SqlFlavourImpl.backend]

theorem from_connection_info_selects_backend_witness :
    (from_connection_info (ConnectionInfo.postgres "postgresql://host/db") 5).map
        SqlFlavourImpl.backend = some BackendKind.postgres ∧
    (from_connection_info (ConnectionInfo.mysql "mysql://a") 1).map SqlFlavourImpl.backend =
      (from_connection_info (ConnectionInfo.mysql "mysql://b") 2).map SqlFlavourImpl.backend :=
  ⟨from_connection_info_selects_backend.1 (ConnectionInfo.postgres "postgresql://host/db") 5
      BackendKind.postgres rfl,
    from_connection_info_selects_backend.2 (ConnectionInfo.mysql "mysql://a")
      (ConnectionInfo.mysql "mysql://b") 1 2 rfl⟩

/-- C2: every fallible I/O operation of the `SqlFlavour` contract is a total
function into `ConnectorResult` — on every input it returns an explicit `ok`
or `error` value, never signalling failure any other way. -/
theorem sql_flavour_ops_explicit_results :
    ∀ (F : SqlFlavourOps) (conn : Connection) (url : String)
      (migrations : List MigrationDirectory) (connector : SqlMigrationConnector),
      (F.acquire_lock conn).is_explicit ∧
      (F.create_database url).is_explicit ∧
      (F.create_migrations_table conn).is_explicit ∧
      (F.describe_schema conn).is_explicit ∧
      (F.drop_database url).is_explicit ∧
      (F.drop_migrations_table conn).is_explicit ∧
      (F.ensure_connection_validity conn).is_explicit ∧
      (F.reset conn).is_explicit ∧
      (F.sql_schema_from_migration_history migrations conn connector).is_explicit := by
  intro F conn url migrations connector
  exact ⟨ConnectorResult.is_explicit_all _, ConnectorResult.is_explicit_all _,
    ConnectorResult.is_explicit_all _, ConnectorResult.is_explicit_all _,
    ConnectorResult.is_explicit_all _, ConnectorResult.is_explicit_all _,
    ConnectorResult.is_explicit_all _, ConnectorResult.is_explicit_all _,
    ConnectorResult.is_explicit_all _⟩

/-- C4: `from_connection_info` constructs every flavour it returns with
exactly the feature flags it was given, and `features()` reads back that same
capability set. In this pure embedding flavour values are immutable, so the
set is fixed for the flavour's lifetime. -/
theorem flavour_features_fixed :
    ∀ (ci : ConnectionInfo) (features : MigrationFeatures) (flavour : SqlFlavourImpl),
      from_connection_info ci features = some flavour → flavour.features = features := by
  intro ci features flavour h
  cases ci <;> simp only [from_connection_info, Option.some.injEq] at h <;>
    first
    | (subst h; rfl)
    | cases h

theorem flavour_features_fixed_witness :
    (SqlFlavourImpl.features (SqlFlavourImpl.mysqlFlavour "mysql://u" 7) = 7) :=
  flavour_features_fixed (ConnectionInfo.mysql "mysql://u") 7
    (SqlFlavourImpl.mysqlFlavour "mysql://u" 7) rfl

/-- C5: the default `check_database_version_compatibility` is advisory and
never blocking — its result is an optional warning and it returns `none` for
every datamodel. -/
theorem check_database_version_compatibility_advisory :
    ∀ (flavour : SqlFlavourImpl) (datamodel : Datamodel),
      check_database_version_compatibility flavour datamodel = none := by
  intro _ _
  rfl

/-- C6: the default `scan_migration_script` is the constant no-op — for every
script it returns unit and leaves the flavour unchanged. -/
theorem scan_migration_script_noop :
    ∀ (flavour : SqlFlavourImpl) (script : String),
      scan_migration_script flavour script = ((), flavour) := by
  intro _ _
  rfl

/-- C7: the maximum identifier byte length for the MySQL backend is exactly
64 bytes. -/
theorem mysql_identifier_size_limit_eq : MYSQL_IDENTIFIER_SIZE_LIMIT = 64 := rfl

/-- C8: `from_connection_info` is partial — it has no value (panics via
`unreachable!`) on the in-memory SQLite variant, and returns a flavour
exactly when the descriptor is a MySQL, Postgres, file-based SQLite or SQL
Server variant. -/
theorem from_connection_info_partiality :
    (∀ (db_name : String) (features : MigrationFeatures),
        from_connection_info (ConnectionInfo.inMemorySqlite db_name) features = none) ∧
    (∀ (ci : ConnectionInfo) (features : MigrationFeatures),
        (from_connection_info ci features).isSome = true ↔
          ((∃ url, ci = ConnectionInfo.mysql url) ∨
           (∃ url, ci = ConnectionInfo.postgres url) ∨
           (∃ file_path db_name, ci = ConnectionInfo.sqlite file_path db_name) ∨
           (∃ url, ci = ConnectionInfo.mssql url))) := by
  constructor
  · intro _ _
    rfl
  · intro ci features
    cases ci <;> simp [from_connection_info]

/-- C9: `ReadQuery::returns` is `false` on every `AggregateRecordsQuery`, and
on the `RecordQuery`, `ManyRecordsQuery` and `RelatedRecordsQuery` variants
it equals whether the variant's selected fields are a superset of the given
field selection. -/
theorem read_query_returns_spec :
    (∀ (q : AggregateRecordsQuery) (fs : FieldSelection),
        (ReadQuery.aggregateRecordsQuery q).returns fs = false) ∧
    (∀ (q : RecordQuery) (fs : FieldSelection),
        (ReadQuery.recordQuery q).returns fs = q.selected_fields.is_superset_of fs) ∧
    (∀ (q : ManyRecordsQuery) (fs : FieldSelection),
        (ReadQuery.manyRecordsQuery q).returns fs = q.selected_fields.is_superset_of fs) ∧
    (∀ (q : RelatedRecordsQuery) (fs : FieldSelection),
        (ReadQuery.relatedRecordsQuery q).returns fs = q.selected_fields.is_superset_of fs) :=
  ⟨fun _ _ => rfl, fun _ _ => rfl, fun _ _ => rfl, fun _ _ => rfl⟩

/-- C10: the `FilteredQuery` operations on `ReadQuery` are partial —
`get_filter` and `set_filter` panic (`unimplemented!`, embedded as `none`) on
the `RelatedRecordsQuery` and `AggregateRecordsQuery` variants, and succeed
on the `RecordQuery` and `ManyRecordsQuery` variants, where `set_filter f`
stores `some f` as the variant's filter. -/
theorem read_query_filtered_query_partiality :
    (∀ (q : RelatedRecordsQuery) (f : Filter),
        (ReadQuery.relatedRecordsQuery q).set_filter f = none ∧
        (ReadQuery.relatedRecordsQuery q).get_filter = none) ∧
    (∀ (q : AggregateRecordsQuery) (f : Filter),
        (ReadQuery.aggregateRecordsQuery q).set_filter f = none ∧
        (ReadQuery.aggregateRecordsQuery q).get_filter = none) ∧
    (∀ (q : RecordQuery) (f : Filter),
        (ReadQuery.recordQuery q).set_filter f =
          some (ReadQuery.recordQuery (q.set_filter f)) ∧
        (q.set_filter f).filter = some f ∧
        (ReadQuery.recordQuery q).get_filter = some q.filter) ∧
    (∀ (q : ManyRecordsQuery) (f : Filter),
        (ReadQuery.manyRecordsQuery q).set_filter f =
          some (ReadQuery.manyRecordsQuery (q.set_filter f)) ∧
        (q.set_filter f).args.filter = some f ∧
        (ReadQuery.manyRecordsQuery q).get_filter = some q.args.filter) := by
  refine ⟨fun q f => ⟨rfl, rfl⟩, fun q f => ⟨rfl, rfl⟩, fun q f => ?_, fun q f => ?_⟩
  · cases q
    exact ⟨rfl, rfl, rfl⟩
  · cases q
    exact ⟨rfl, rfl, rfl⟩

/-- C3: for every well-formed schema snapshot, the diff of the snapshot
against itself is the empty step list, for any capability set. -/
theorem diff_self (S : SqlSchema) (caps : Capabilities) (hwf : S.wf) :
    diff S S caps = [] := by
  obtain ⟨hnames, hcols⟩ := hwf
  have hfind : ∀ t ∈ S.tables, findTable S.tables t.name = some t := by
    intro t ht
    exact find?_key_self Table.name S.tables t ht hnames
  have hdropt : S.tables.filter (fun t => (findTable S.tables t.name).isNone) = [] := by
    rw [List.filter_eq_nil_iff]
    intro t ht
    simp [hfind t ht]
  have hfkdrop : S.tables.flatMap (fun t =>
      match findTable S.tables t.name with
      | some t' => dropped_fk_steps t t'
      | none => []) = [] := by
    rw [List.flatMap_eq_nil_iff]
    intro t ht
    rw [hfind t ht]
    exact dropped_fk_steps_self t
  have hbody : S.tables.flatMap (fun t =>
      match findTable S.tables t.name with
      | some t' => column_steps t t' ++ index_steps t t'
      | none => []) = [] := by
    rw [List.flatMap_eq_nil_iff]
    intro t ht
    rw [hfind t ht]
    simp [column_steps_self t (hcols t ht), index_steps_self]
  have hfkadd : S.tables.flatMap (fun t =>
      match findTable S.tables t.name with
      | some t' => added_fk_steps t t'
      | none => []) = [] := by
    rw [List.flatMap_eq_nil_iff]
    intro t ht
    rw [hfind t ht]
    exact added_fk_steps_self t
  simp only [diff, hdropt, hfkdrop, hbody, hfkadd, List.flatMap_nil, List.map_nil,
    List.append_nil, List.nil_append]

theorem diff_self_witness :
    (SqlSchema.mk
        [Table.mk "users"
          [Column.mk "id" "int" false none, Column.mk "name" "varchar(255)" true none]
          (some ["id"])
          [Index.mk "users_name_idx" ["name"] false]
          [ForeignKey.mk ["id"] "accounts" ["id"] "CASCADE" "CASCADE"]]
        [("role", ["admin", "user"])] ["users_id_seq"]).wf ∧
    diff
      (SqlSchema.mk
        [Table.mk "users"
          [Column.mk "id" "int" false none, Column.mk "name" "varchar(255)" true none]
          (some ["id"])
          [Index.mk "users_name_idx" ["name"] false]
          [ForeignKey.mk ["id"] "accounts" ["id"] "CASCADE" "CASCADE"]]
        [("role", ["admin", "user"])] ["users_id_seq"])
      (SqlSchema.mk
        [Table.mk "users"
          [Column.mk "id" "int" false none, Column.mk "name" "varchar(255)" true none]
          (some ["id"])
          [Index.mk "users_name_idx" ["name"] false]
          [ForeignKey.mk ["id"] "accounts" ["id"] "CASCADE" "CASCADE"]]
        [("role", ["admin", "user"])] ["users_id_seq"])
      (Capabilities.mk true true 64) = [] :=
  ⟨by decide,
    diff_self
      (SqlSchema.mk
        [Table.mk "users"
          [Column.mk "id" "int" false none, Column.mk "name" "varchar(255)" true none]
          (some ["id"])
          [Index.mk "users_name_idx" ["name"] false]
          [ForeignKey.mk ["id"] "accounts" ["id"] "CASCADE" "CASCADE"]]
        [("role", ["admin", "user"])] ["users_id_seq"])
      (Capabilities.mk true true 64) (by decide)⟩

end PrismaEngines
